import Mathlib

/-!
Verification of the yt-to-spotify backend's title-cleaning, similarity
scoring, match selection, confidence aggregation and request handling
logic, shallowly embedded from `server.js`.  JavaScript strings are
modelled as `String`/`List Char`, JavaScript numbers as `ℚ` (with a small
`JSNum` type adding the IEEE special values `NaN`/`±Infinity` where the
aggregator's behaviour on them matters).
-/

namespace YtSpot

/-- JavaScript whitespace test (`\s`) restricted to the ASCII whitespace
characters that can occur in the strings handled here. -/
def jsWhite (c : Char) : Bool := c = ' ' || c = '\t' || c = '\n' || c = '\r'

/-- Remainder of the list strictly after the first closing delimiter `cl`,
not crossing a newline (JS `.` in a regex does not match `\n`).  `none`
when no reachable `cl` exists. -/
def afterClose (cl : Char) (l : List Char) : Option (List Char) :=
  match l.dropWhile (fun c => !(c = cl || c = '\n')) with
  | [] => none
  | c :: rest => if c = cl then some rest else none

/-- Fuel-indexed scanner behind `stripDelim`; fuel bounds the number of
consumed characters, so `fuel = l.length` always suffices. -/
def stripDelimF (op cl : Char) : Nat → List Char → List Char
  | _, [] => []
  | 0, l => l
  | fuel + 1, c :: cs =>
    if c = op then
      match afterClose cl cs with
      | some rest => stripDelimF op cl fuel rest
      | none => c :: stripDelimF op cl fuel cs
    else c :: stripDelimF op cl fuel cs

/-- Embedding of `title.replace(/\(.*?\)/g, "")` (resp. the square-bracket
variant): repeatedly drop a non-greedy `op … cl` span, scanning left to
right. -/
def stripDelim (op cl : Char) (l : List Char) : List Char :=
  stripDelimF op cl l.length l

/-- Embedding of `.replace(/\s+/g, " ")`: collapse each run of whitespace
to one space. -/
def collapseWs : List Char → List Char
  | [] => []
  | [c] => if jsWhite c then [' '] else [c]
  | c1 :: c2 :: rest =>
    if jsWhite c1 && jsWhite c2 then collapseWs (c2 :: rest)
    else (if jsWhite c1 then ' ' else c1) :: collapseWs (c2 :: rest)

/-- Embedding of `String.prototype.trim`. -/
def trimWs (l : List Char) : List Char :=
  ((l.dropWhile jsWhite).reverse.dropWhile jsWhite).reverse

/-- Embedding of `s.replace(word, "")` for a plain-string pattern: remove
the first occurrence of `pat`, if any. -/
def removeFirst (pat : List Char) : List Char → List Char
  | [] => []
  | c :: cs =>
    if pat.isPrefixOf (c :: cs) then (c :: cs).drop pat.length
    else c :: removeFirst pat cs

/-- Embedding of `lower.split(" - ")` (JS `String.prototype.split` with a
plain three-character separator), with an accumulator for the current
chunk. -/
def splitDash : List Char → List Char → List (List Char)
  | [], acc => [acc.reverse]
  | ' ' :: '-' :: ' ' :: rest, acc => acc.reverse :: splitDash rest []
  | c :: cs, acc => splitDash cs (c :: acc)

/-- Lowercase a character list (JS `toLowerCase`, ASCII range). -/
def lowerChars (l : List Char) : List Char := l.map Char.toLower

/-- Shared title-cleaning pipeline, parameterised by the noise vocabulary:
strip `(…)` and `[…]` spans, lowercase, remove the first occurrence of
each noise word in order, collapse whitespace, then rebuild from an
`artist - track` split when present. -/
def cleanWith (noise : List String) (rawTitle : String) : String :=
  if rawTitle = "" then ""
  else
    let title := stripDelim '[' ']' (stripDelim '(' ')' rawTitle.data)
    let lower := lowerChars title
    let lower := noise.foldl (fun s w => removeFirst w.data s) lower
    let lower := trimWs (collapseWs lower)
    match splitDash lower [] with
    | p0 :: p1 :: rest =>
      let artist := trimWs p0
      let track := trimWs (List.intercalate [' ', '-', ' '] (p1 :: rest))
      String.mk (trimWs (artist ++ ' ' :: track))
    | _ => String.mk lower

/-- Noise vocabulary of `cleanYoutubeTitle` (first server variant), in
source order. -/
def noiseV1 : List String :=
  ["official video", "official music video", "music video", "lyrics",
   "audio", "video", "hd", "4k", "remastered", "remaster"]

/-- Embedding of `cleanYoutubeTitle` from the first server variant. -/
def cleanYoutubeTitle (rawTitle : String) : String := cleanWith noiseV1 rawTitle

/-- Noise vocabulary of `cleanTitle` (second server variant), in source
order. -/
def noiseV2 : List String :=
  ["official music video", "official video", "music video", "video",
   "lyrics", "audio", "remaster", "hd", "4k"]

/-- Embedding of `cleanTitle` from the second server variant. -/
def cleanTitle (title : String) : String := cleanWith noiseV2 title

/-- Modelled from the spec: the Title Normalizer's noise vocabulary as the
specification lists it — `{official video, official music video, music
video, video, lyrics, audio, remaster, remastered, hd, 4k, tiktok,
sound}`, applied in that listed order.  Stated only to be compared with
the source-derived cleaners; no source function uses this list. -/
def claimedNoiseClean (rawTitle : String) : String :=
  cleanWith
    ["official video", "official music video", "music video", "video",
     "lyrics", "audio", "remaster", "remastered", "hd", "4k", "tiktok",
     "sound"] rawTitle

/-- Character class of `normalizeForMatch`'s regex `[\(\)\[\]\-_,.:/!]`. -/
def matchPunct (c : Char) : Bool :=
  c = '(' || c = ')' || c = '[' || c = ']' || c = '-' || c = '_' ||
  c = ',' || c = '.' || c = ':' || c = '/' || c = '!'

/-- Embedding of `normalizeForMatch`: lowercase, replace the punctuation
class with spaces, collapse whitespace, trim. -/
def normalizeForMatch (s : String) : String :=
  String.mk (trimWs (collapseWs
    ((lowerChars s.data).map (fun c => if matchPunct c then ' ' else c))))

/-- Split a character list on single spaces (the normalizer has already
collapsed runs), dropping nothing yet. -/
def splitSpace : List Char → List Char → List (List Char)
  | [], acc => [acc.reverse]
  | ' ' :: rest, acc => acc.reverse :: splitSpace rest []
  | c :: cs, acc => splitSpace cs (c :: acc)

/-- First-occurrence deduplication, mirroring JS `Set` insertion order. -/
def dedupFirst : List (List Char) → List (List Char) → List (List Char)
  | [], _ => []
  | s :: rest, seen =>
    if seen.contains s then dedupFirst rest seen
    else s :: dedupFirst rest (s :: seen)

/-- Token set of a string as `tokenSimilarity` builds it:
`new Set(normalizeForMatch(x).split(" ").filter(Boolean))`. -/
def simTokens (s : String) : List (List Char) :=
  dedupFirst ((splitSpace (normalizeForMatch s).data []).filter (· ≠ [])) []

/-- Embedding of `tokenSimilarity`: token-set Jaccard ratio, `0` when
either token set is empty. -/
def tokenSimilarity (a b : String) : ℚ :=
  let aTokens := simTokens a
  let bTokens := simTokens b
  if aTokens.length = 0 ∨ bTokens.length = 0 then 0
  else
    let inter := (aTokens.filter (fun t => bTokens.contains t)).length
    (inter : ℚ) / ((aTokens.length : ℚ) + (bTokens.length : ℚ) - (inter : ℚ))

/-- Decide whether `pat` occurs as a contiguous sublist of the second
argument. -/
def listInfix (pat : List Char) : List Char → Bool
  | [] => pat.isEmpty
  | c :: cs => pat.isPrefixOf (c :: cs) || listInfix pat cs

/-- JS `String.prototype.includes` for a plain pattern. -/
def containsStr (s pat : String) : Bool := listInfix pat.data s.data

/-- JS `String.prototype.toLowerCase` (ASCII range). -/
def jsLower (s : String) : String := String.mk (lowerChars s.data)

/-- The live/remix penalty block shared by both catalog searches: subtract
`0.1` when exactly one of the strings contains `"live"`, and a further
`0.1` when they disagree on containing `"remix"` or `"mix"`. -/
def penalize (combined query : String) (score : ℚ) : ℚ :=
  let combinedLower := jsLower combined
  let queryLower := jsLower query
  let hasLive := containsStr combinedLower "live"
  let queryLive := containsStr queryLower "live"
  let score := if hasLive ≠ queryLive then score - 0.1 else score
  let hasRemix := containsStr combinedLower "remix" || containsStr combinedLower "mix"
  let queryRemix := containsStr queryLower "remix" || containsStr queryLower "mix"
  if hasRemix ≠ queryRemix then score - 0.1 else score

/-- A Spotify search result item (`track.name`, `track.artists[i].name`,
`track.id`). -/
structure SpotifyTrack where
  name : String
  artists : List String
  id : String
  deriving DecidableEq

/-- The combined string a Spotify candidate is scored on:
`"<artist names joined by space> <track name>"`. -/
def spotifyCombined (t : SpotifyTrack) : String :=
  String.intercalate " " t.artists ++ " " ++ t.name

/-- Per-candidate Spotify score, parameterised by the similarity scorer
(`tokenSimilarity` in the source). -/
def scoreSpotifyWith (sim : String → String → ℚ) (query : String)
    (t : SpotifyTrack) : ℚ :=
  penalize (spotifyCombined t) query (sim (spotifyCombined t) query)

/-- Per-candidate Spotify score as the source computes it. -/
def scoreSpotify (query : String) (t : SpotifyTrack) : ℚ :=
  scoreSpotifyWith tokenSimilarity query t

/-- An iTunes search result item (`trackName`, `artistName`,
`trackViewUrl`); the name fields can be absent (`|| ""` in the source). -/
structure AppleItem where
  trackName : Option String
  artistName : Option String
  trackViewUrl : String
  deriving DecidableEq

/-- The combined string an Apple candidate is scored on:
`"<artistName> <trackName>"` with empty-string defaults. -/
def appleCombined (i : AppleItem) : String :=
  i.artistName.getD "" ++ " " ++ i.trackName.getD ""

/-- Per-candidate Apple score, parameterised by the similarity scorer. -/
def scoreAppleWith (sim : String → String → ℚ) (query : String)
    (i : AppleItem) : ℚ :=
  penalize (appleCombined i) query (sim (appleCombined i) query)

/-- Per-candidate Apple score as the source computes it. -/
def scoreApple (query : String) (i : AppleItem) : ℚ :=
  scoreAppleWith tokenSimilarity query i

/-- The selection loop both searches run: start from
`best = null, bestScore = 0` and update on a strictly greater score. -/
def bestLoop {α : Type} (score : α → ℚ) (items : List α) : Option α × ℚ :=
  items.foldl
    (fun acc t => if acc.2 < score t then (some t, score t) else acc)
    (none, 0)

/-- Result object of a catalog search: `{ track, score }`. -/
structure SearchValue (α : Type) where
  track : Option α
  score : ℚ
  deriving DecidableEq

/-- Embedding of `searchSpotifyTrack` over an already-fetched candidate
list, parameterised by the similarity scorer: `null` on an empty list,
otherwise the best-scoring candidate with the score floored at `0`
(`Math.max(0, bestScore)`). -/
def searchSpotifyTrackWith (sim : String → String → ℚ) (query : String)
    (items : List SpotifyTrack) : Option (SearchValue SpotifyTrack) :=
  if items.isEmpty then none
  else
    some { track := (bestLoop (scoreSpotifyWith sim query) items).1,
           score := max 0 (bestLoop (scoreSpotifyWith sim query) items).2 }

/-- `searchSpotifyTrack` as the source instantiates it. -/
def searchSpotifyTrack (query : String) (items : List SpotifyTrack) :
    Option (SearchValue SpotifyTrack) :=
  searchSpotifyTrackWith tokenSimilarity query items

/-- Embedding of `searchAppleTrack` over an already-fetched candidate
list, parameterised by the similarity scorer. -/
def searchAppleTrackWith (sim : String → String → ℚ) (query : String)
    (items : List AppleItem) : Option (SearchValue AppleItem) :=
  if items.isEmpty then none
  else
    some { track := (bestLoop (scoreAppleWith sim query) items).1,
           score := max 0 (bestLoop (scoreAppleWith sim query) items).2 }

/-- `searchAppleTrack` as the source instantiates it. -/
def searchAppleTrack (query : String) (items : List AppleItem) :
    Option (SearchValue AppleItem) :=
  searchAppleTrackWith tokenSimilarity query items

/-- A JavaScript number as the confidence aggregator can observe it: a
finite value (idealised as a rational), `NaN`, or a signed infinity. -/
inductive JSNum where
  | nan : JSNum
  | inf : JSNum
  | ninf : JSNum
  | num (q : ℚ) : JSNum
  deriving DecidableEq

namespace JSNum

/-- JS truthiness of a number: everything except `0` and `NaN`. -/
def truthy : JSNum → Bool
  | nan => false
  | inf => true
  | ninf => true
  | num q => decide (q ≠ 0)

/-- JS multiplication on the observable values. -/
def jmul : JSNum → JSNum → JSNum
  | nan, _ => nan
  | _, nan => nan
  | inf, inf => inf
  | inf, ninf => ninf
  | ninf, inf => ninf
  | ninf, ninf => inf
  | inf, num q => if 0 < q then inf else if q < 0 then ninf else nan
  | num q, inf => if 0 < q then inf else if q < 0 then ninf else nan
  | ninf, num q => if 0 < q then ninf else if q < 0 then inf else nan
  | num q, ninf => if 0 < q then ninf else if q < 0 then inf else nan
  | num q, num r => num (q * r)

/-- JS addition on the observable values. -/
def jadd : JSNum → JSNum → JSNum
  | nan, _ => nan
  | _, nan => nan
  | inf, ninf => nan
  | ninf, inf => nan
  | inf, _ => inf
  | _, inf => inf
  | ninf, _ => ninf
  | _, ninf => ninf
  | num q, num r => num (q + r)

/-- JS `Math.round`: round half towards positive infinity;
`NaN`/infinities pass through. -/
def jround : JSNum → JSNum
  | nan => nan
  | inf => inf
  | ninf => ninf
  | num q => num ((⌊q + 1/2⌋ : ℤ) : ℚ)

/-- JS strict `>`; any comparison with `NaN` is false. -/
def jgt : JSNum → JSNum → Bool
  | nan, _ => false
  | _, nan => false
  | inf, inf => false
  | inf, _ => true
  | ninf, _ => false
  | num _, inf => false
  | num _, ninf => true
  | num q, num r => decide (r < q)

/-- JS strict `<`. -/
def jlt (a b : JSNum) : Bool := jgt b a

/-- JS `>=`; any comparison with `NaN` is false. -/
def jge : JSNum → JSNum → Bool
  | nan, _ => false
  | _, nan => false
  | inf, _ => true
  | ninf, ninf => true
  | ninf, _ => false
  | num _, inf => false
  | num _, ninf => true
  | num q, num r => decide (r ≤ q)

end JSNum

open JSNum in
/-- Embedding of the raw confidence combination in `/api/convert`:
weighted blend when both scores are truthy, otherwise whichever score is
truthy, otherwise `0`. -/
def confidenceScoreOf (spotifyScore appleScore : JSNum) : JSNum :=
  if spotifyScore.truthy && appleScore.truthy then
    jadd (jmul spotifyScore (num (0.6 : ℚ))) (jmul appleScore (num (0.4 : ℚ)))
  else if spotifyScore.truthy then spotifyScore
  else if appleScore.truthy then appleScore
  else num 0

open JSNum in
/-- Embedding of the reported confidence: `Math.round(score * 100)`, then
the two clamp statements `if (confidence > 100)` / `if (confidence < 0)`. -/
def confidenceOf (spotifyScore appleScore : JSNum) : JSNum :=
  let c := jround (jmul (confidenceScoreOf spotifyScore appleScore) (num 100))
  let c := if jgt c (num 100) then num 100 else c
  if jlt c (num 0) then num 0 else c

open JSNum in
/-- Embedding of the match-type assignment: the source initialises
`matchType = "very_low"` and then unconditionally overwrites it through
an exhaustive `if`/`else` chain. -/
def matchTypeOf (confidence : JSNum) : String :=
  if jge confidence (num 90) then "exact"
  else if jge confidence (num 75) then "high"
  else if jge confidence (num 50) then "medium"
  else "low"

/-- The confidence threshold below which search-page URLs replace direct
links (`CONFIDENCE_SEARCH_THRESHOLD = 74`). -/
def CONFIDENCE_SEARCH_THRESHOLD : ℚ := 74

/-- Characters `encodeURIComponent` leaves unescaped:
alphanumerics and `-_.!~*'()`. -/
def isUriUnreserved (c : Char) : Bool :=
  c.isAlpha || c.isDigit || "-_.!~*'()".contains c

/-- UTF-8 bytes of a character, as natural numbers. -/
def utf8Bytes (c : Char) : List Nat :=
  let n := c.toNat
  if n < 128 then [n]
  else if n < 2048 then [192 + n / 64, 128 + n % 64]
  else if n < 65536 then
    [224 + n / 4096, 128 + (n / 64) % 64, 128 + n % 64]
  else
    [240 + n / 262144, 128 + (n / 4096) % 64, 128 + (n / 64) % 64,
     128 + n % 64]

/-- Uppercase hexadecimal digit. -/
def hexDigit (n : Nat) : Char :=
  if n < 10 then Char.ofNat (48 + n) else Char.ofNat (55 + n)

/-- Percent-escape of one byte, `%XX`. -/
def pctByte (b : Nat) : List Char := ['%', hexDigit (b / 16), hexDigit (b % 16)]

/-- Embedding of JS `encodeURIComponent`. -/
def encodeURIComponent (s : String) : String :=
  String.mk ((s.data.map (fun c =>
    if isUriUnreserved c then [c] else ((utf8Bytes c).map pctByte).flatten)).flatten)

/-- The Spotify search-page fallback URL built in the handler. -/
def spotifySearchUrl (cleanedQuery : String) : String :=
  "https://open.spotify.com/search/" ++ encodeURIComponent cleanedQuery

/-- The Apple Music search-page fallback URL built in the handler. -/
def appleSearchUrl (cleanedQuery : String) : String :=
  "https://music.apple.com/us/search?term=" ++ encodeURIComponent cleanedQuery

/-- The SoundCloud search-page URL built in the handler. -/
def soundCloudSearchUrl (cleanedQuery : String) : String :=
  "https://soundcloud.com/search?q=" ++ encodeURIComponent cleanedQuery

/-- Outcome of one branch of `Promise.allSettled`. -/
inductive Settled (α : Type) where
  | fulfilled (value : α) : Settled α
  | rejected : Settled α

/-- Extraction of `(spotifyUrl, spotifyScore)` from the settled Spotify
branch: both are set only when the branch fulfilled with a truthy
`track`; the URL is built from the track id. -/
def extractSpotify (r : Settled (Option (SearchValue SpotifyTrack))) :
    Option String × ℚ :=
  match r with
  | .fulfilled (some v) =>
    match v.track with
    | some t => (some ("https://open.spotify.com/track/" ++ t.id), v.score)
    | none => (none, 0)
  | _ => (none, 0)

/-- Extraction of `(appleMusicUrl, appleScore)` from the settled Apple
branch; the URL is the item's `trackViewUrl`. -/
def extractApple (r : Settled (Option (SearchValue AppleItem))) :
    Option String × ℚ :=
  match r with
  | .fulfilled (some v) =>
    match v.track with
    | some i => (some i.trackViewUrl, v.score)
    | none => (none, 0)
  | _ => (none, 0)

/-- The success payload of `/api/convert`. -/
structure ConvertOk where
  youtubeUrl : String
  youtubeTitle : String
  cleanedQuery : String
  confidence : JSNum
  matchType : String
  spotifyUrl : String
  appleMusicUrl : String
  soundCloudUrl : String
  rawSpotifyScore : ℚ
  rawAppleScore : ℚ
  deriving DecidableEq

/-- The three response shapes `/api/convert` can produce. -/
inductive ConvertResponse where
  | badRequest (error : String) : ConvertResponse
  | serverError (error : String) : ConvertResponse
  | ok (body : ConvertOk) : ConvertResponse
  deriving DecidableEq

open JSNum in
/-- Embedding of the `/api/convert` handler (first server variant) over
its external effects: the request body's `youtubeUrl` field, the settled
outcome of the oEmbed title fetch, and the settled outcomes of the two
catalog searches. -/
def convertHandler (youtubeUrl : Option String) (meta : Settled String)
    (sp : Settled (Option (SearchValue SpotifyTrack)))
    (ap : Settled (Option (SearchValue AppleItem))) : ConvertResponse :=
  match youtubeUrl with
  | none => .badRequest "YouTube URL is required"
  | some u =>
    if u = "" then .badRequest "YouTube URL is required"
    else
      match meta with
      | .rejected => .serverError "Internal server error"
      | .fulfilled youtubeTitle =>
        let cleanedQuery := cleanYoutubeTitle youtubeTitle
        let es := extractSpotify sp
        let ea := extractApple ap
        let spotifyScore := es.2
        let appleScore := ea.2
        let confidence := confidenceOf (num spotifyScore) (num appleScore)
        let matchType := matchTypeOf confidence
        let finalSpotifyUrl := es.1.getD (spotifySearchUrl cleanedQuery)
        let finalAppleUrl := ea.1.getD (appleSearchUrl cleanedQuery)
        let finalSpotifyUrl :=
          if jlt confidence (num CONFIDENCE_SEARCH_THRESHOLD) then
            spotifySearchUrl cleanedQuery
          else finalSpotifyUrl
        let finalAppleUrl :=
          if jlt confidence (num CONFIDENCE_SEARCH_THRESHOLD) then
            appleSearchUrl cleanedQuery
          else finalAppleUrl
        .ok
          { youtubeUrl := u
            youtubeTitle := youtubeTitle
            cleanedQuery := cleanedQuery
            confidence := confidence
            matchType := matchType
            spotifyUrl := finalSpotifyUrl
            appleMusicUrl := finalAppleUrl
            soundCloudUrl := soundCloudSearchUrl cleanedQuery
            rawSpotifyScore := spotifyScore
            rawAppleScore := appleScore }

open JSNum in
/-- The success payload `/api/convert` builds for given settled catalog
outcomes, written out explicitly (the record the handler's `res.json`
call produces after all its `let` bindings are substituted). -/
def convertPayload (u title : String)
    (sp : Settled (Option (SearchValue SpotifyTrack)))
    (ap : Settled (Option (SearchValue AppleItem))) : ConvertOk :=
  { youtubeUrl := u
    youtubeTitle := title
    cleanedQuery := cleanYoutubeTitle title
    confidence := confidenceOf (num (extractSpotify sp).2)
      (num (extractApple ap).2)
    matchType := matchTypeOf (confidenceOf (num (extractSpotify sp).2)
      (num (extractApple ap).2))
    spotifyUrl :=
      if jlt (confidenceOf (num (extractSpotify sp).2)
          (num (extractApple ap).2)) (num CONFIDENCE_SEARCH_THRESHOLD) then
        spotifySearchUrl (cleanYoutubeTitle title)
      else (extractSpotify sp).1.getD (spotifySearchUrl (cleanYoutubeTitle title))
    appleMusicUrl :=
      if jlt (confidenceOf (num (extractSpotify sp).2)
          (num (extractApple ap).2)) (num CONFIDENCE_SEARCH_THRESHOLD) then
        appleSearchUrl (cleanYoutubeTitle title)
      else (extractApple ap).1.getD (appleSearchUrl (cleanYoutubeTitle title))
    soundCloudUrl := soundCloudSearchUrl (cleanYoutubeTitle title)
    rawSpotifyScore := (extractSpotify sp).2
    rawAppleScore := (extractApple ap).2 }

/-- The raw confidence combination exactly as the specification states it
(§4.5): both scores nonzero → `spotifyScore*0.6 + appleScore*0.4`,
exactly one nonzero → that score, neither → `0`.  Stated for comparison
with the code's aggregator. -/
def specRawConfidence (spotifyScore appleScore : ℚ) : ℚ :=
  if spotifyScore ≠ 0 ∧ appleScore ≠ 0 then
    spotifyScore * (0.6 : ℚ) + appleScore * (0.4 : ℚ)
  else if spotifyScore ≠ 0 then spotifyScore
  else if appleScore ≠ 0 then appleScore
  else 0

/-- The reported confidence as the specification states it:
`round(confidence_raw * 100)`, with `round` realised as
`floor(x + 1/2)` (the behaviour of JS `Math.round`). -/
def specConfidence (spotifyScore appleScore : ℚ) : ℤ :=
  ⌊specRawConfidence spotifyScore appleScore * 100 + 1/2⌋

/-! ### Helper lemmas about the selection loop -/

theorem le_foldl_max (l : List ℚ) (a : ℚ) : a ≤ l.foldl max a := by
  induction l generalizing a with
  | nil => simp
  | cons x l ih =>
    rw [List.foldl_cons]
    exact le_trans (le_max_left a x) (ih (max a x))

theorem foldl_max_eq_or_mem (l : List ℚ) (a : ℚ) :
    l.foldl max a = a ∨ l.foldl max a ∈ l := by
  induction l generalizing a with
  | nil => simp
  | cons x l ih =>
    rw [List.foldl_cons]
    rcases ih (max a x) with h | h
    · rcases max_choice a x with hm | hm
      · left; rw [h, hm]
      · right; rw [h, hm]; exact List.mem_cons_self x l
    · right; exact List.mem_cons_of_mem x h

theorem find?_congr_on {α : Type} {p q : α → Bool} (l : List α)
    (h : ∀ x ∈ l, p x = q x) : l.find? p = l.find? q := by
  induction l with
  | nil => rfl
  | cons x l ih =>
    have hx := h x (List.mem_cons_self x l)
    by_cases hp : p x = true
    · rw [List.find?_cons_of_pos l hp, List.find?_cons_of_pos l (hx ▸ hp)]
    · rw [List.find?_cons_of_neg l hp, List.find?_cons_of_neg l (hx ▸ hp)]
      exact ih fun y hy => h y (List.mem_cons_of_mem x hy)

theorem bestLoop_step_snd {α : Type} (score : α → ℚ)
    (acc : Option α × ℚ) (t : α) :
    (if acc.2 < score t then (some t, score t) else acc).2
      = max acc.2 (score t) := by
  by_cases h : acc.2 < score t
  · rw [if_pos h]; exact (max_eq_right h.le).symm
  · rw [if_neg h]; exact (max_eq_left (le_of_not_lt h)).symm

theorem bestLoop_snd_aux {α : Type} (score : α → ℚ) (items : List α) :
    ∀ acc : Option α × ℚ,
      (items.foldl
        (fun acc t => if acc.2 < score t then (some t, score t) else acc)
        acc).2 = (items.map score).foldl max acc.2 := by
  induction items with
  | nil => intro acc; rfl
  | cons t ts ih =>
    intro acc
    rw [List.foldl_cons, List.map_cons, List.foldl_cons, ih]
    rw [bestLoop_step_snd score acc t]

/-- The final score of the selection loop is the running maximum of the
candidate scores, seeded with `0`. -/
theorem bestLoop_snd {α : Type} (score : α → ℚ) (items : List α) :
    (bestLoop score items).2 = (items.map score).foldl max 0 :=
  bestLoop_snd_aux score items (none, 0)

theorem bestLoop_fst_aux {α : Type} (score : α → ℚ) (items : List α) :
    ∀ (b0 : Option α) (s0 : ℚ),
      (items.foldl
        (fun acc t => if acc.2 < score t then (some t, score t) else acc)
        (b0, s0)).1 =
      (items.find? (fun t =>
        decide (s0 < score t) &&
        decide (score t = (items.map score).foldl max s0))).or b0 := by
  induction items with
  | nil => intro b0 s0; rfl
  | cons t ts ih =>
    intro b0 s0
    rw [List.foldl_cons, List.map_cons, List.foldl_cons]
    by_cases h : s0 < score t
    · rw [if_pos h]
      have hmax : max s0 (score t) = score t := max_eq_right h.le
      rw [hmax, ih (some t) (score t)]
      by_cases hM : (ts.map score).foldl max (score t) = score t
      · have hhead :
            (fun x => decide (s0 < score x) &&
              decide (score x = (ts.map score).foldl max (score t))) t
              = true := by
          simp only [hM]; simp [h]
        rw [List.find?_cons_of_pos ts hhead]
        have hnone : ts.find? (fun x =>
            decide (score t < score x) &&
            decide (score x = (ts.map score).foldl max (score t))) = none := by
          rw [List.find?_eq_none]
          intro x _ hx
          simp only [Bool.and_eq_true, decide_eq_true_eq] at hx
          rw [hM] at hx
          exact absurd hx.2 (ne_of_gt hx.1)
        rw [hnone]
        rfl
      · have hlt : score t < (ts.map score).foldl max (score t) :=
          lt_of_le_of_ne (le_foldl_max _ _) (Ne.symm hM)
        have hhead :
            (fun x => decide (s0 < score x) &&
              decide (score x = (ts.map score).foldl max (score t))) t
              = false := by
          simp [ne_of_lt hlt]
        rw [List.find?_cons_of_neg ts (by simp [hhead])]
        have hcongr := find?_congr_on (p := fun x =>
            decide (score t < score x) &&
            decide (score x = (ts.map score).foldl max (score t)))
          (q := fun x =>
            decide (s0 < score x) &&
            decide (score x = (ts.map score).foldl max (score t))) ts ?_
        · rw [hcongr]
          have hsome : ((ts.find? (fun x =>
              decide (s0 < score x) &&
              decide (score x = (ts.map score).foldl max (score t)))).isSome)
              = true := by
            rw [List.find?_isSome]
            rcases foldl_max_eq_or_mem (ts.map score) (score t) with he | hm
            · exact absurd he hM
            · obtain ⟨x, hx, hxs⟩ := List.mem_map.mp hm
              refine ⟨x, hx, ?_⟩
              simp only [Bool.and_eq_true, decide_eq_true_eq]
              exact ⟨hxs ▸ lt_trans h hlt, hxs⟩
          obtain ⟨y, hy⟩ := Option.isSome_iff_exists.mp hsome
          rw [hy]
          rfl
        · intro x _
          by_cases hxM : score x = (ts.map score).foldl max (score t)
          · simp [hxM, hlt, lt_trans h hlt]
          · simp [hxM]
    · rw [if_neg h]
      have hmax : max s0 (score t) = s0 := max_eq_left (le_of_not_lt h)
      rw [hmax, ih b0 s0]
      have hhead :
          (fun x => decide (s0 < score x) &&
            decide (score x = (ts.map score).foldl max s0)) t = false := by
        simp [le_of_not_lt h, not_lt_of_le (le_of_not_lt h), h]
      rw [List.find?_cons_of_neg ts (by simp [hhead])]

/-- The selected candidate is the first one whose score is positive and
equal to the running maximum; when none is, it stays `null`. -/
theorem bestLoop_fst {α : Type} (score : α → ℚ) (items : List α) :
    (bestLoop score items).1 =
      items.find? (fun t =>
        decide (0 < score t) &&
        decide (score t = (items.map score).foldl max 0)) := by
  rw [bestLoop, bestLoop_fst_aux score items none 0, Option.or_none]

theorem bestLoop_all_nonpos {α : Type} (score : α → ℚ) (items : List α)
    (h : ∀ t ∈ items, score t ≤ 0) : bestLoop score items = (none, 0) := by
  unfold bestLoop
  induction items with
  | nil => rfl
  | cons t ts ih =>
    rw [List.foldl_cons]
    have ht : ¬ ((0 : ℚ) < score t) :=
      not_lt_of_le (h t (List.mem_cons_self t ts))
    simp only [ht, if_neg, if_false]
    exact ih fun x hx => h x (List.mem_cons_of_mem t hx)

/-! ### Helper lemmas about the confidence aggregator -/

open JSNum

theorem confidenceScoreOf_num (sp ap : ℚ) :
    confidenceScoreOf (num sp) (num ap) = num (specRawConfidence sp ap) := by
  unfold confidenceScoreOf specRawConfidence
  by_cases hs : sp = 0 <;> by_cases ha : ap = 0 <;>
    simp [JSNum.truthy, JSNum.jmul, JSNum.jadd, hs, ha]

theorem clamp_steps (x : ℚ) :
    (if jlt (if jgt (num x) (num 100) then num 100 else num x) (num 0)
      then num 0
      else if jgt (num x) (num 100) then num 100 else num x)
    = num (if 100 < x then 100 else if x < 0 then 0 else x) := by
  simp only [jgt, jlt]
  by_cases h1 : (100 : ℚ) < x
  · simp [h1, show ¬ ((100 : ℚ) < 0) by norm_num]
  · by_cases h2 : x < 0 <;> simp [h1, h2]

theorem confidenceOf_num (sp ap : ℚ) :
    confidenceOf (num sp) (num ap) =
      num ((max 0 (min (specConfidence sp ap) 100) : ℤ) : ℚ) := by
  unfold confidenceOf
  rw [confidenceScoreOf_num]
  have hm : jround (jmul (num (specRawConfidence sp ap)) (num 100))
      = num ((specConfidence sp ap : ℤ) : ℚ) := by
    simp [JSNum.jmul, JSNum.jround, specConfidence]
  simp only [hm, clamp_steps]
  congr 1
  set m : ℤ := specConfidence sp ap
  by_cases h1 : (100 : ℤ) < m
  · rw [if_pos (by exact_mod_cast h1)]
    have : max 0 (min m 100) = 100 := by omega
    rw [this]
    norm_num
  · rw [if_neg (fun hc => h1 (by exact_mod_cast hc))]
    by_cases h2 : m < 0
    · rw [if_pos (by exact_mod_cast h2)]
      have : max 0 (min m 100) = 0 := by omega
      rw [this]
      norm_num
    · rw [if_neg (fun hc => h2 (by exact_mod_cast hc))]
      have : max 0 (min m 100) = m := by omega
      rw [this]

/-! ### Claim theorems -/

/-- C1: for per-catalog scores in `[0,1]`, the reported confidence is
`round(raw * 100)` where the raw confidence is the weighted blend when
both scores are nonzero, the single nonzero score when exactly one is,
and `0` otherwise; in particular `spotifyScore = 0.9, appleScore = 0.8`
yields confidence `86` and match type `"high"`. -/
theorem confidence_combination_rule (sp ap : ℚ)
    (hsp0 : 0 ≤ sp) (hsp1 : sp ≤ 1) (hap0 : 0 ≤ ap) (hap1 : ap ≤ 1) :
    confidenceOf (num sp) (num ap) = num ((specConfidence sp ap : ℤ) : ℚ)
    ∧ confidenceOf (num (9/10)) (num (8/10)) = num 86
    ∧ matchTypeOf (confidenceOf (num (9/10)) (num (8/10))) = "high" := by
  have hspec86 : specConfidence ((9:ℚ)/10) ((8:ℚ)/10) = 86 := by
    unfold specConfidence specRawConfidence
    norm_num
  have h86 : confidenceOf (num (9/10)) (num (8/10)) = num 86 := by
    rw [confidenceOf_num, hspec86]
    norm_num
  refine ⟨?_, h86, ?_⟩
  · rw [confidenceOf_num]
    have hraw0 : 0 ≤ specRawConfidence sp ap := by
      unfold specRawConfidence
      split_ifs <;> nlinarith
    have hraw1 : specRawConfidence sp ap ≤ 1 := by
      unfold specRawConfidence
      split_ifs <;> nlinarith
    have hlo : (0 : ℤ) ≤ specConfidence sp ap := by
      unfold specConfidence
      rw [Int.le_floor]
      push_cast
      linarith
    have hhi : specConfidence sp ap ≤ 100 := by
      unfold specConfidence
      rw [Int.floor_le_iff]
      push_cast
      linarith
    have hclamp : max 0 (min (specConfidence sp ap) 100) = specConfidence sp ap := by
      omega
    rw [hclamp]
  · rw [h86]
    have h90 : jge (num (86:ℚ)) (num 90) = false := by
      simp only [jge, decide_eq_false_iff_not, not_le]
      norm_num
    have h75 : jge (num (86:ℚ)) (num 75) = true := by
      simp only [jge, decide_eq_true_eq]
      norm_num
    unfold matchTypeOf
    rw [h90, h75]
    simp

/-- Witness for C1 at `spotifyScore = 0.9, appleScore = 0.8`. -/
theorem confidence_combination_rule_witness :
    confidenceOf (num (9/10)) (num (8/10)) = num 86 :=
  (confidence_combination_rule (9/10) (8/10) (by norm_num) (by norm_num)
    (by norm_num) (by norm_num)).2.1

/-- C3 counterexample: the clamp does not remap `NaN` to `0` — a raw
confidence of `NaN` (reachable from infinite score inputs, which the
claim's "arbitrary floats" include) propagates to the reported
confidence. -/
theorem confidence_nan_counterexample :
    confidenceScoreOf JSNum.inf JSNum.ninf = JSNum.nan
    ∧ confidenceOf JSNum.inf JSNum.ninf = JSNum.nan
    ∧ JSNum.nan ≠ num 0 := by
  have hscore : confidenceScoreOf JSNum.inf JSNum.ninf = JSNum.nan := by
    unfold confidenceScoreOf
    norm_num [JSNum.truthy, JSNum.jmul, JSNum.jadd]
  refine ⟨hscore, ?_, by decide⟩
  unfold confidenceOf
  rw [hscore]
  rfl

/-- C3 amended: for every pair of finite scores the reported confidence
is an integer in `[0,100]`; a `NaN` raw confidence is not remapped to
`0` by the clamp but propagates unchanged. -/
theorem confidence_clamped_for_finite_scores :
    (∀ sp ap : ℚ, ∃ n : ℤ,
      confidenceOf (num sp) (num ap) = num ((n : ℤ) : ℚ)
      ∧ 0 ≤ n ∧ n ≤ 100)
    ∧ confidenceOf JSNum.inf JSNum.ninf = JSNum.nan := by
  constructor
  · intro sp ap
    exact ⟨max 0 (min (specConfidence sp ap) 100), confidenceOf_num sp ap,
      by omega, by omega⟩
  · have hscore : confidenceScoreOf JSNum.inf JSNum.ninf = JSNum.nan := by
      unfold confidenceScoreOf
      norm_num [JSNum.truthy, JSNum.jmul, JSNum.jadd]
    unfold confidenceOf
    rw [hscore]
    rfl

/-- C9: every reported match type is one of `exact`, `high`, `medium`,
`low`; the initial `"very_low"` value is unconditionally overwritten, so
`"very_low"` is never emitted. -/
theorem match_type_never_very_low (c : JSNum) :
    (matchTypeOf c = "exact" ∨ matchTypeOf c = "high" ∨
      matchTypeOf c = "medium" ∨ matchTypeOf c = "low")
    ∧ matchTypeOf c ≠ "very_low" := by
  unfold matchTypeOf
  split_ifs
  · exact ⟨Or.inl rfl, by decide⟩
  · exact ⟨Or.inr (Or.inl rfl), by decide⟩
  · exact ⟨Or.inr (Or.inr (Or.inl rfl)), by decide⟩
  · exact ⟨Or.inr (Or.inr (Or.inr rfl)), by decide⟩

/-- C2 counterexample: the claimed vocabulary removes `tiktok` (and, with
its `remaster`-before-`remastered` order, leaves `"ed"` of
`"Remastered"`), but neither source cleaner removes `tiktok`, and
`cleanYoutubeTitle` erases `"Remastered"` completely. -/
theorem noise_vocabulary_counterexample :
    cleanYoutubeTitle "tiktok" = "tiktok"
    ∧ cleanTitle "tiktok" = "tiktok"
    ∧ claimedNoiseClean "tiktok" = ""
    ∧ cleanYoutubeTitle "Remastered" = ""
    ∧ claimedNoiseClean "Remastered" = "ed" := by
  refine ⟨by decide, by decide, by decide, by decide, by decide⟩

/-- C2 amended: `cleanYoutubeTitle` removes, case-insensitively and as
first-occurrence substrings, exactly the vocabulary `[official video,
official music video, music video, lyrics, audio, video, hd, 4k,
remastered, remaster]` in that order, and `cleanTitle` exactly
`[official music video, official video, music video, video, lyrics,
audio, remaster, hd, 4k]` in that order; neither removes `tiktok` or
`sound`. -/
theorem noise_vocabulary_amended :
    (∀ raw, cleanYoutubeTitle raw =
      cleanWith ["official video", "official music video", "music video",
        "lyrics", "audio", "video", "hd", "4k", "remastered", "remaster"] raw)
    ∧ (∀ raw, cleanTitle raw =
      cleanWith ["official music video", "official video", "music video",
        "video", "lyrics", "audio", "remaster", "hd", "4k"] raw)
    ∧ cleanYoutubeTitle "tiktok sound" = "tiktok sound"
    ∧ cleanTitle "tiktok sound" = "tiktok sound" :=
  ⟨fun _ => rfl, fun _ => rfl, by decide, by decide⟩

/-- C8: the example title normalizes to `"artist track"`, whose token set
under the similarity tokenizer is exactly `{artist, track}`. -/
theorem title_normalizer_example :
    cleanYoutubeTitle "Artist - Track (Official Video) [HD]" = "artist track"
    ∧ simTokens (cleanYoutubeTitle "Artist - Track (Official Video) [HD]")
        = ["artist".data, "track".data] := by
  refine ⟨by decide, by decide⟩

/-- C5: a catalog search over an empty candidate list returns without
invoking the similarity scorer (the result is the same for every scorer),
and the handler's extraction of that result is `url = null, score = 0`. -/
theorem empty_candidate_list_result :
    (∀ sim query, searchSpotifyTrackWith sim query [] = none)
    ∧ (∀ sim query, searchAppleTrackWith sim query [] = none)
    ∧ (∀ query, extractSpotify (.fulfilled (searchSpotifyTrack query []))
        = (none, 0))
    ∧ (∀ query, extractApple (.fulfilled (searchAppleTrack query []))
        = (none, 0)) :=
  ⟨fun _ _ => rfl, fun _ _ => rfl, fun _ => rfl, fun _ => rfl⟩

/-- C4: on a nonempty candidate list (≤5) each candidate's combined
string is scored with the token-set similarity plus the live/remix
penalties; the result keeps the maximum penalized score floored at `0`,
and the selected candidate is the first (in provider order) whose score
is positive and attains the running maximum. -/
theorem match_selector_argmax (query : String)
    (sItems : List SpotifyTrack) (aItems : List AppleItem)
    (hsne : sItems ≠ []) (hs5 : sItems.length ≤ 5)
    (hane : aItems ≠ []) (ha5 : aItems.length ≤ 5) :
    (∃ v, searchSpotifyTrack query sItems = some v
      ∧ v.score = max 0 ((sItems.map (scoreSpotify query)).foldl max 0)
      ∧ 0 ≤ v.score
      ∧ v.track = sItems.find? (fun t =>
          decide (0 < scoreSpotify query t) &&
          decide (scoreSpotify query t
            = (sItems.map (scoreSpotify query)).foldl max 0)))
    ∧ (∃ v, searchAppleTrack query aItems = some v
      ∧ v.score = max 0 ((aItems.map (scoreApple query)).foldl max 0)
      ∧ 0 ≤ v.score
      ∧ v.track = aItems.find? (fun i =>
          decide (0 < scoreApple query i) &&
          decide (scoreApple query i
            = (aItems.map (scoreApple query)).foldl max 0))) := by
  constructor
  · refine ⟨⟨(bestLoop (scoreSpotify query) sItems).1,
      max 0 (bestLoop (scoreSpotify query) sItems).2⟩, ?_, ?_, ?_, ?_⟩
    · unfold searchSpotifyTrack searchSpotifyTrackWith
      rw [if_neg (by simpa [List.isEmpty_iff] using hsne)]
      rfl
    · rw [bestLoop_snd]
    · exact le_max_left 0 _
    · exact bestLoop_fst (scoreSpotify query) sItems
  · refine ⟨⟨(bestLoop (scoreApple query) aItems).1,
      max 0 (bestLoop (scoreApple query) aItems).2⟩, ?_, ?_, ?_, ?_⟩
    · unfold searchAppleTrack searchAppleTrackWith
      rw [if_neg (by simpa [List.isEmpty_iff] using hane)]
      rfl
    · rw [bestLoop_snd]
    · exact le_max_left 0 _
    · exact bestLoop_fst (scoreApple query) aItems

/-- Witness for C4 on one-element candidate lists. -/
theorem match_selector_argmax_witness :
    (∃ v, searchSpotifyTrack "" [⟨"Track", ["Artist"], "id1"⟩] = some v
      ∧ v.score = max 0 (([⟨"Track", ["Artist"], "id1"⟩].map
          (scoreSpotify "")).foldl max 0)
      ∧ 0 ≤ v.score
      ∧ v.track = [⟨"Track", ["Artist"], "id1"⟩].find? (fun t =>
          decide (0 < scoreSpotify "" t) &&
          decide (scoreSpotify "" t
            = ([⟨"Track", ["Artist"], "id1"⟩].map (scoreSpotify "")).foldl max 0)))
    ∧ (∃ v, searchAppleTrack "" [⟨some "Track", some "Artist", "u1"⟩] = some v
      ∧ v.score = max 0 (([⟨some "Track", some "Artist", "u1"⟩].map
          (scoreApple "")).foldl max 0)
      ∧ 0 ≤ v.score
      ∧ v.track = [⟨some "Track", some "Artist", "u1"⟩].find? (fun i =>
          decide (0 < scoreApple "" i) &&
          decide (scoreApple "" i
            = ([⟨some "Track", some "Artist", "u1"⟩].map (scoreApple "")).foldl max 0))) :=
  match_selector_argmax "" [⟨"Track", ["Artist"], "id1"⟩]
    [⟨some "Track", some "Artist", "u1"⟩]
    (by decide) (by decide) (by decide) (by decide)

/-- C10: with `bestScore` starting at `0` and a strict comparison, a
nonempty candidate list whose penalized scores are all `≤ 0` yields
`track = null` with score `0` in both catalog searches, the handler
extracts no direct URL from it, and the response exposes the search-page
URL for that catalog. -/
theorem nonpositive_scores_keep_null_track (query : String)
    (sItems : List SpotifyTrack) (aItems : List AppleItem)
    (hsne : sItems ≠ []) (hane : aItems ≠ [])
    (hs : ∀ t ∈ sItems, scoreSpotify query t ≤ 0)
    (ha : ∀ i ∈ aItems, scoreApple query i ≤ 0) :
    searchSpotifyTrack query sItems = some ⟨none, 0⟩
    ∧ searchAppleTrack query aItems = some ⟨none, 0⟩
    ∧ extractSpotify (.fulfilled (searchSpotifyTrack query sItems)) = (none, 0)
    ∧ extractApple (.fulfilled (searchAppleTrack query aItems)) = (none, 0)
    ∧ ∀ u title, u ≠ "" → ∃ p,
        convertHandler (some u) (.fulfilled title)
          (.fulfilled (searchSpotifyTrack query sItems))
          (.fulfilled (searchAppleTrack query aItems)) = .ok p
        ∧ p.spotifyUrl = spotifySearchUrl (cleanYoutubeTitle title)
        ∧ p.appleMusicUrl = appleSearchUrl (cleanYoutubeTitle title) := by
  have h1 : searchSpotifyTrack query sItems = some ⟨none, 0⟩ := by
    unfold searchSpotifyTrack searchSpotifyTrackWith
    rw [if_neg (by simpa [List.isEmpty_iff] using hsne)]
    rw [show bestLoop (scoreSpotifyWith tokenSimilarity query) sItems = (none, 0)
      from bestLoop_all_nonpos (scoreSpotify query) sItems hs]
    simp
  have h2 : searchAppleTrack query aItems = some ⟨none, 0⟩ := by
    unfold searchAppleTrack searchAppleTrackWith
    rw [if_neg (by simpa [List.isEmpty_iff] using hane)]
    rw [show bestLoop (scoreAppleWith tokenSimilarity query) aItems = (none, 0)
      from bestLoop_all_nonpos (scoreApple query) aItems ha]
    simp
  refine ⟨h1, h2, by rw [h1]; rfl, by rw [h2]; rfl, ?_⟩
  intro u title hu
  rw [h1, h2]
  refine ⟨{ youtubeUrl := u
            youtubeTitle := title
            cleanedQuery := cleanYoutubeTitle title
            confidence := confidenceOf (num 0) (num 0)
            matchType := matchTypeOf (confidenceOf (num 0) (num 0))
            spotifyUrl :=
              if jlt (confidenceOf (num 0) (num 0))
                  (num CONFIDENCE_SEARCH_THRESHOLD) then
                spotifySearchUrl (cleanYoutubeTitle title)
              else (none : Option String).getD
                (spotifySearchUrl (cleanYoutubeTitle title))
            appleMusicUrl :=
              if jlt (confidenceOf (num 0) (num 0))
                  (num CONFIDENCE_SEARCH_THRESHOLD) then
                appleSearchUrl (cleanYoutubeTitle title)
              else (none : Option String).getD
                (appleSearchUrl (cleanYoutubeTitle title))
            soundCloudUrl := soundCloudSearchUrl (cleanYoutubeTitle title)
            rawSpotifyScore := 0
            rawAppleScore := 0 }, ?_, ?_, ?_⟩
  · simp only [convertHandler]
    rw [if_neg hu]
    rfl
  · show (if jlt (confidenceOf (num (0:ℚ)) (num (0:ℚ)))
        (num CONFIDENCE_SEARCH_THRESHOLD) = true
      then spotifySearchUrl (cleanYoutubeTitle title)
      else (none : Option String).getD (spotifySearchUrl (cleanYoutubeTitle title)))
      = spotifySearchUrl (cleanYoutubeTitle title)
    split <;> rfl
  · show (if jlt (confidenceOf (num (0:ℚ)) (num (0:ℚ)))
        (num CONFIDENCE_SEARCH_THRESHOLD) = true
      then appleSearchUrl (cleanYoutubeTitle title)
      else (none : Option String).getD (appleSearchUrl (cleanYoutubeTitle title)))
      = appleSearchUrl (cleanYoutubeTitle title)
    split <;> rfl

/-- Witness for C10 on one-element candidate lists scored against the
empty query (similarity `0`, no penalties). -/
theorem nonpositive_scores_keep_null_track_witness :
    searchSpotifyTrack "" [⟨"Track", ["Artist"], "id1"⟩] = some ⟨none, 0⟩
    ∧ searchAppleTrack "" [⟨some "Track", some "Artist", "u1"⟩] = some ⟨none, 0⟩
    ∧ extractSpotify (.fulfilled (searchSpotifyTrack ""
        [⟨"Track", ["Artist"], "id1"⟩])) = (none, 0)
    ∧ extractApple (.fulfilled (searchAppleTrack ""
        [⟨some "Track", some "Artist", "u1"⟩])) = (none, 0)
    ∧ ∀ u title, u ≠ "" → ∃ p,
        convertHandler (some u) (.fulfilled title)
          (.fulfilled (searchSpotifyTrack "" [⟨"Track", ["Artist"], "id1"⟩]))
          (.fulfilled (searchAppleTrack "" [⟨some "Track", some "Artist", "u1"⟩]))
          = .ok p
        ∧ p.spotifyUrl = spotifySearchUrl (cleanYoutubeTitle title)
        ∧ p.appleMusicUrl = appleSearchUrl (cleanYoutubeTitle title) :=
  nonpositive_scores_keep_null_track "" [⟨"Track", ["Artist"], "id1"⟩]
    [⟨some "Track", some "Artist", "u1"⟩] (by decide) (by decide)
    (by
      intro t ht
      rw [List.mem_singleton] at ht
      subst ht
      exact le_of_eq rfl)
    (by
      intro i hi
      rw [List.mem_singleton] at hi
      subst hi
      exact le_of_eq rfl)

theorem confidenceOf_zero_zero : confidenceOf (num 0) (num 0) = num 0 := by
  rw [confidenceOf_num]
  have h : specConfidence 0 0 = 0 := by
    unfold specConfidence specRawConfidence
    norm_num
  rw [h]
  norm_num

theorem convertHandler_ok (u title : String) (hu : u ≠ "")
    (sp : Settled (Option (SearchValue SpotifyTrack)))
    (ap : Settled (Option (SearchValue AppleItem))) :
    convertHandler (some u) (.fulfilled title) sp ap
      = .ok (convertPayload u title sp ap) := by
  simp only [convertHandler]
  rw [if_neg hu]
  rfl

/-- C6: a missing or empty `youtubeUrl` yields a 400 error response;
with a valid body the settle-all join absorbs any combination of catalog
outcomes into a 200 response, and when both catalogs fail the response
carries confidence 0 and both search-page fallback URLs. -/
theorem convert_error_handling :
    (∀ meta sp ap, convertHandler none meta sp ap
      = .badRequest "YouTube URL is required")
    ∧ (∀ meta sp ap, convertHandler (some "") meta sp ap
      = .badRequest "YouTube URL is required")
    ∧ (∀ u title sp ap, u ≠ "" → ∃ p,
        convertHandler (some u) (.fulfilled title) sp ap = .ok p)
    ∧ (∀ u title, u ≠ "" → ∃ p,
        convertHandler (some u) (.fulfilled title) .rejected .rejected = .ok p
        ∧ p.confidence = num 0
        ∧ p.spotifyUrl = spotifySearchUrl (cleanYoutubeTitle title)
        ∧ p.appleMusicUrl = appleSearchUrl (cleanYoutubeTitle title)) := by
  refine ⟨fun meta sp ap => rfl, fun meta sp ap => rfl, ?_, ?_⟩
  · intro u title sp ap hu
    exact ⟨_, convertHandler_ok u title hu sp ap⟩
  · intro u title hu
    refine ⟨convertPayload u title .rejected .rejected,
      convertHandler_ok u title hu .rejected .rejected, ?_, ?_, ?_⟩
    · show confidenceOf (num 0) (num 0) = num 0
      exact confidenceOf_zero_zero
    · show (if jlt (confidenceOf (num 0) (num 0))
          (num CONFIDENCE_SEARCH_THRESHOLD) = true then
          spotifySearchUrl (cleanYoutubeTitle title)
        else (none : Option String).getD
          (spotifySearchUrl (cleanYoutubeTitle title)))
        = spotifySearchUrl (cleanYoutubeTitle title)
      split <;> rfl
    · show (if jlt (confidenceOf (num 0) (num 0))
          (num CONFIDENCE_SEARCH_THRESHOLD) = true then
          appleSearchUrl (cleanYoutubeTitle title)
        else (none : Option String).getD
          (appleSearchUrl (cleanYoutubeTitle title)))
        = appleSearchUrl (cleanYoutubeTitle title)
      split <;> rfl

/-- Witness for C6 with a nonempty URL, a fetched title, and both
catalog branches rejected. -/
theorem convert_error_handling_witness :
    ∃ p, convertHandler (some "https://youtu.be/x")
        (.fulfilled "Artist - Track (Official Video) [HD]")
        .rejected .rejected = .ok p
      ∧ p.confidence = num 0
      ∧ p.spotifyUrl = spotifySearchUrl
          (cleanYoutubeTitle "Artist - Track (Official Video) [HD]")
      ∧ p.appleMusicUrl = appleSearchUrl
          (cleanYoutubeTitle "Artist - Track (Official Video) [HD]") :=
  convert_error_handling.2.2.2 "https://youtu.be/x"
    "Artist - Track (Official Video) [HD]" (by decide)

/-- C7: for every successful `/api/convert` response, confidence below
the threshold `74` forces both catalog URLs to their percent-encoded
search-page fallbacks, an absent direct URL for a catalog forces that
catalog's search-page fallback regardless of confidence, and the
SoundCloud URL is always the constructed search-page URL. -/
theorem link_exposure_rule (u title : String)
    (sp : Settled (Option (SearchValue SpotifyTrack)))
    (ap : Settled (Option (SearchValue AppleItem)))
    (hu : u ≠ "") :
    ∃ p, convertHandler (some u) (.fulfilled title) sp ap = .ok p
      ∧ (jlt p.confidence (num CONFIDENCE_SEARCH_THRESHOLD) = true →
          p.spotifyUrl = spotifySearchUrl (cleanYoutubeTitle title)
          ∧ p.appleMusicUrl = appleSearchUrl (cleanYoutubeTitle title))
      ∧ ((extractSpotify sp).1 = none →
          p.spotifyUrl = spotifySearchUrl (cleanYoutubeTitle title))
      ∧ ((extractApple ap).1 = none →
          p.appleMusicUrl = appleSearchUrl (cleanYoutubeTitle title))
      ∧ p.soundCloudUrl = soundCloudSearchUrl (cleanYoutubeTitle title) := by
  refine ⟨convertPayload u title sp ap,
    convertHandler_ok u title hu sp ap, ?_, ?_, ?_, rfl⟩
  · intro hlt
    constructor
    · show (if jlt (confidenceOf (num (extractSpotify sp).2)
            (num (extractApple ap).2)) (num CONFIDENCE_SEARCH_THRESHOLD)
            = true then
          spotifySearchUrl (cleanYoutubeTitle title)
        else (extractSpotify sp).1.getD
          (spotifySearchUrl (cleanYoutubeTitle title)))
        = spotifySearchUrl (cleanYoutubeTitle title)
      exact if_pos hlt
    · show (if jlt (confidenceOf (num (extractSpotify sp).2)
            (num (extractApple ap).2)) (num CONFIDENCE_SEARCH_THRESHOLD)
            = true then
          appleSearchUrl (cleanYoutubeTitle title)
        else (extractApple ap).1.getD
          (appleSearchUrl (cleanYoutubeTitle title)))
        = appleSearchUrl (cleanYoutubeTitle title)
      exact if_pos hlt
  · intro hnone
    show (if jlt (confidenceOf (num (extractSpotify sp).2)
          (num (extractApple ap).2)) (num CONFIDENCE_SEARCH_THRESHOLD)
          = true then
        spotifySearchUrl (cleanYoutubeTitle title)
      else (extractSpotify sp).1.getD
        (spotifySearchUrl (cleanYoutubeTitle title)))
      = spotifySearchUrl (cleanYoutubeTitle title)
    split
    · rfl
    · rw [hnone]
      rfl
  · intro hnone
    show (if jlt (confidenceOf (num (extractSpotify sp).2)
          (num (extractApple ap).2)) (num CONFIDENCE_SEARCH_THRESHOLD)
          = true then
        appleSearchUrl (cleanYoutubeTitle title)
      else (extractApple ap).1.getD
        (appleSearchUrl (cleanYoutubeTitle title)))
      = appleSearchUrl (cleanYoutubeTitle title)
    split
    · rfl
    · rw [hnone]
      rfl

/-- Witness for C7 with both catalog branches rejected. -/
theorem link_exposure_rule_witness :
    ∃ p, convertHandler (some "https://youtu.be/x") (.fulfilled "T")
        .rejected .rejected = .ok p
      ∧ (jlt p.confidence (num CONFIDENCE_SEARCH_THRESHOLD) = true →
          p.spotifyUrl = spotifySearchUrl (cleanYoutubeTitle "T")
          ∧ p.appleMusicUrl = appleSearchUrl (cleanYoutubeTitle "T"))
      ∧ ((extractSpotify .rejected).1 = none →
          p.spotifyUrl = spotifySearchUrl (cleanYoutubeTitle "T"))
      ∧ ((extractApple .rejected).1 = none →
          p.appleMusicUrl = appleSearchUrl (cleanYoutubeTitle "T"))
      ∧ p.soundCloudUrl = soundCloudSearchUrl (cleanYoutubeTitle "T") :=
  link_exposure_rule "https://youtu.be/x" "T" .rejected .rejected (by decide)

end YtSpot
